import Mathlib

/-!
Verification of the generic document-mutation engine in `src/router.js`
(the admin maintenance router of a mongoose-backed Express service).

The engine operates on schema-less mongoose documents.  We embed those
documents as a JSON-like tree `JsVal` (objects are ordered association
lists with unique keys, as JS objects are); mongoose `markModified`
calls are recorded as an explicit dirty list, and `save` as a boolean
flag, in each route's result structure.  The store (`model.findOne`) is
embedded as lookup in a list of documents; a query is a list of
scalar-equality conditions (the claims never depend on richer matching,
and an absent query is `Option.none`, matching mongoose treating a
missing filter as match-all).

Out of model (documented where relevant): JS prototype properties
(e.g. reading `length` of an array through a dotted path), documents
with a field literally named "undefined", and store-level I/O errors.
-/

/-- A JavaScript/BSON value as stored in a document.  `oid` is a mongoose
`ObjectId` (carrying its hex string), `date` a `Date` (epoch instant). -/
inductive JsVal where
  | null
  | num (n : Int)
  | str (s : String)
  | oid (s : String)
  | date (t : Nat)
  | arr (elems : List JsVal)
  | obj (fields : List (String × JsVal))

/-- Read an own property of a JS object (field lists have unique keys). -/
def objGet : List (String × JsVal) → String → Option JsVal
  | [], _ => none
  | (k', v') :: rest, k => if k' = k then some v' else objGet rest k

/-- Write a property of a JS object: replace in place, or append (JS
property insertion order). -/
def objSet : List (String × JsVal) → String → JsVal → List (String × JsVal)
  | [], k, v => [(k, v)]
  | (k', v') :: rest, k, v =>
      if k' = k then (k, v) :: rest else (k', v') :: objSet rest k v

/-- `delete object[k]`: remove an own property. -/
def objRemove : List (String × JsVal) → String → List (String × JsVal)
  | [], _ => []
  | (k', v') :: rest, k => if k' = k then rest else (k', v') :: objRemove rest k

/-- `s.split(".")`, accumulator-based so it reduces in the kernel.
`acc` holds the current segment's characters in reverse. -/
def splitDotAux : List Char → List Char → List String
  | acc, [] => [String.mk acc.reverse]
  | acc, c :: rest =>
      if c = '.' then String.mk acc.reverse :: splitDotAux [] rest
      else splitDotAux (c :: acc) rest

/-- `path.split(".")` as used throughout the router (`_.toPath` of lodash
agrees with it on plain dotted paths, which is all the router receives). -/
def splitDots (s : String) : List String :=
  splitDotAux [] s.data

/-- `_.toPath(path)[0]`: the top-level segment of a dotted path. -/
def firstSeg (p : String) : String :=
  (splitDots p).headI

/-- `_.get(object, path)` restricted to field access: descend through
object fields; a missing or non-object intermediate yields `none`
(JS `undefined`). -/
def jsGet : JsVal → List String → Option JsVal
  | v, [] => some v
  | JsVal.obj fs, k :: rest =>
      match objGet fs k with
      | some w => jsGet w rest
      | none => none
  | _, _ :: _ => none

/-- `_.has(object, path)`. -/
def jsHas (v : JsVal) (path : List String) : Bool :=
  (jsGet v path).isSome

/-- `_.set(object, path, value)`: descend creating plain objects for
missing or non-object intermediates; a non-object root is returned
unchanged (lodash `baseSet` bails out on non-objects). -/
def jsSet : JsVal → List String → JsVal → JsVal
  | v, [], _ => v
  | JsVal.obj fs, [k], newV => JsVal.obj (objSet fs k newV)
  | JsVal.obj fs, k :: k2 :: rest, newV =>
      let child := match objGet fs k with
        | some (JsVal.obj cfs) => JsVal.obj cfs
        | _ => JsVal.obj []
      JsVal.obj (objSet fs k (jsSet child (k2 :: rest) newV))
  | v, _ :: _, _ => v

/-- Apply `f` to the value at an existing field path; documents without
the path are returned unchanged (used for in-place array/field mutation
write-back). -/
def modifyAtPath : JsVal → List String → (JsVal → JsVal) → JsVal
  | v, [], f => f v
  | JsVal.obj fs, k :: rest, f =>
      match objGet fs k with
      | some w => JsVal.obj (objSet fs k (modifyAtPath w rest f))
      | none => JsVal.obj fs
  | v, _ :: _, _ => v

/-- `v.toString()`.  Scalars are stringified as JS does (an `ObjectId`
yields its hex string); stringification of composite values is
abstracted to a constant (plain JS gives "[object Object]"; no claim
depends on composite cases). -/
def jsToString : JsVal → String
  | JsVal.null => "null"
  | JsVal.num n => toString n
  | JsVal.str s => s
  | JsVal.oid s => s
  | JsVal.date t => toString t
  | JsVal.arr _ => "[array]"
  | JsVal.obj _ => "[object Object]"

/-- Is the value a JS array (`Array.isArray`)? -/
def jsIsArr : JsVal → Bool
  | JsVal.arr _ => true
  | _ => false

/-- Is the value a JS object (mongoose documents always are)? -/
def jsIsObj : JsVal → Bool
  | JsVal.obj _ => true
  | _ => false

/-- Scalar equality, used for query matching. -/
def scalarEq : JsVal → JsVal → Bool
  | JsVal.null, JsVal.null => true
  | JsVal.num a, JsVal.num b => a == b
  | JsVal.str a, JsVal.str b => a == b
  | JsVal.oid a, JsVal.oid b => a == b
  | JsVal.date a, JsVal.date b => a == b
  | _, _ => false

/-- A query filter: a conjunction of path-equals-scalar conditions. -/
def Query : Type := List (String × JsVal)

/-- Does a document match every condition of a query? -/
def matchesQuery (doc : JsVal) (q : Query) : Bool :=
  q.all fun c =>
    match jsGet doc (splitDots c.1) with
    | some w => scalarEq w c.2
    | none => false

/-- `model.findOne(query)`: first matching document; mongoose treats an
absent (`undefined`) filter as match-all. -/
def findOne (store : List JsVal) (query : Option Query) : Option JsVal :=
  match query with
  | none => store.head?
  | some q => (store.filter fun d => matchesQuery d q).head?

-- Basic lemmas about the path operations.

theorem objGet_objSet_self (fs : List (String × JsVal)) (k : String) (v : JsVal) :
    objGet (objSet fs k v) k = some v := by
  induction fs with
  | nil => simp [objSet, objGet]
  | cons hd tl ih =>
      obtain ⟨k', v'⟩ := hd
      by_cases h : k' = k
      · simp [objSet, objGet, h]
      · simp [objSet, objGet, h, ih]

theorem splitDotAux_ne_nil (acc l : List Char) : splitDotAux acc l ≠ [] := by
  induction l generalizing acc with
  | nil => simp [splitDotAux]
  | cons c rest ih =>
      by_cases h : c = '.'
      · simp [splitDotAux, h]
      · simpa [splitDotAux, h] using ih (c :: acc)

theorem splitDots_ne_nil (s : String) : splitDots s ≠ [] :=
  splitDotAux_ne_nil [] s.data

/-- Writing a non-empty field path into an object and reading the same
path back yields the written value. -/
theorem jsGet_jsSet_self (path : List String) (hne : path ≠ []) :
    ∀ (fs : List (String × JsVal)) (v : JsVal),
      jsGet (jsSet (JsVal.obj fs) path v) path = some v := by
  induction path with
  | nil => exact absurd rfl hne
  | cons k rest ih =>
      intro fs v
      cases rest with
      | nil => simp [jsSet, jsGet, objGet_objSet_self]
      | cons k2 rest2 =>
          have hne2 : k2 :: rest2 ≠ [] := by simp
          cases hchild : objGet fs k with
          | none =>
              simp only [jsSet, jsGet, hchild, objGet_objSet_self]
              exact ih hne2 [] v
          | some w =>
              cases w with
              | obj cfs =>
                  simp only [jsSet, jsGet, hchild, objGet_objSet_self]
                  exact ih hne2 cfs v
              | null =>
                  simp only [jsSet, jsGet, hchild, objGet_objSet_self]
                  exact ih hne2 [] v
              | num n =>
                  simp only [jsSet, jsGet, hchild, objGet_objSet_self]
                  exact ih hne2 [] v
              | str s =>
                  simp only [jsSet, jsGet, hchild, objGet_objSet_self]
                  exact ih hne2 [] v
              | oid s =>
                  simp only [jsSet, jsGet, hchild, objGet_objSet_self]
                  exact ih hne2 [] v
              | date t =>
                  simp only [jsSet, jsGet, hchild, objGet_objSet_self]
                  exact ih hne2 [] v
              | arr es =>
                  simp only [jsSet, jsGet, hchild, objGet_objSet_self]
                  exact ih hne2 [] v

/-- `jsSet` on an object along a non-empty path yields an object. -/
theorem jsSet_obj_isObj (path : List String) (hne : path ≠ [])
    (fs : List (String × JsVal)) (v : JsVal) :
    ∃ fs', jsSet (JsVal.obj fs) path v = JsVal.obj fs' := by
  cases path with
  | nil => exact absurd rfl hne
  | cons k rest =>
      cases rest with
      | nil => exact ⟨objSet fs k v, rfl⟩
      | cons k2 rest2 => exact ⟨_, rfl⟩

/-!
## `genericChangeField` (src/router.js lines 504-557)

The Mutation Applicator: `changes` is an object mapping a dotted path to
a one-entry change record `{changeType: value}`.  Change types `$set`,
`$setid`, `$setstatus`, `$push` are applied in order via lodash
`_.set`/`_.get`/`_.has`; after each change the top-level path segment is
passed to `markModified`.  The wall clock (`new Date()` in `$setstatus`)
is made explicit as a `now : Nat` parameter.
-/

/-- The errors `genericChangeField` can throw (via `createError`).
`notAnArray` is thrown as `createError(path + " is not an array")`,
which http-errors gives status 500 (this is the spec's `TypeMismatch`). -/
inductive ChangeError where
  | badChangeValue (p : String)
  | unrecognizedChangeType (t : String)
  | notAnArray (p : String)

def changeErrorStatus : ChangeError → Nat
  | ChangeError.badChangeValue _ => 400
  | ChangeError.unrecognizedChangeType _ => 400
  | ChangeError.notAnArray _ => 500

def changeErrorMsg : ChangeError → String
  | ChangeError.badChangeValue p => "Bad change value for " ++ p
  | ChangeError.unrecognizedChangeType t => "Unrecognized changeType " ++ t
  | ChangeError.notAnArray p => p ++ " is not an array"

/-- `ObjectId(value)`: convert a value to a store identifier (invalid
inputs throw in mongoose; the conversion itself is not claim-relevant
and is abstracted to carrying the stringified value). -/
def mkObjectId : JsVal → JsVal
  | JsVal.str s => JsVal.oid s
  | JsVal.oid s => JsVal.oid s
  | v => JsVal.oid (jsToString v)

/-- One iteration of the `Object.entries(changes).forEach` body, up to
(but not including) the `markModified` call: the shape check
(`typeof change !== "object" || keys.length !== 1`), then the
`$set` / `$setid` / `$setstatus` / `$push` dispatch.  For `$push`:
`_.has` then `_.set(object, path, [])` when absent, then
`arr = _.get(object, path, value)`; a non-array `arr` throws, otherwise
the in-place `arr.push(value)` is written back through the same path.
(The `none` branch of the inner `_.get` is only reachable for a
non-object root, where the lodash default `value` is returned and the
push lands on a detached array.)  A JS array is `typeof "object"` with
`Object.entries` listing index keys, hence the `JsVal.arr` cases. -/
def applyOneChange (now : Nat) (object : JsVal) (p : String) (change : JsVal) :
    Except ChangeError JsVal :=
  match change with
  | JsVal.obj [(changeType, value)] =>
      if changeType = "$set" then
        Except.ok (jsSet object (splitDots p) value)
      else if changeType = "$setid" then
        Except.ok (jsSet object (splitDots p) (mkObjectId value))
      else if changeType = "$setstatus" then
        Except.ok (jsSet object (splitDots p)
          (JsVal.obj [("code", value), ("date", JsVal.date now)]))
      else if changeType = "$push" then
        let object1 :=
          if jsHas object (splitDots p) then object
          else jsSet object (splitDots p) (JsVal.arr [])
        match jsGet object1 (splitDots p) with
        | some (JsVal.arr elems) =>
            Except.ok (jsSet object1 (splitDots p) (JsVal.arr (elems ++ [value])))
        | some _ => Except.error (ChangeError.notAnArray p)
        | none =>
            match value with
            | JsVal.arr _ => Except.ok object1
            | _ => Except.error (ChangeError.notAnArray p)
      else Except.error (ChangeError.unrecognizedChangeType changeType)
  | JsVal.arr [_] => Except.error (ChangeError.unrecognizedChangeType "0")
  | _ => Except.error (ChangeError.badChangeValue p)

/-- The whole `forEach` over the change entries, threading the document
and the `markModified` arguments; a thrown error aborts the loop with
the document and dirty list as they stood at the throw. -/
def applyChanges (now : Nat) :
    JsVal → List String → List (String × JsVal) →
    JsVal × List String × Option ChangeError
  | object, dirty, [] => (object, dirty, none)
  | object, dirty, (p, change) :: rest =>
      match applyOneChange now object p change with
      | Except.error e => (object, dirty, some e)
      | Except.ok object1 => applyChanges now object1 (dirty ++ [firstSeg p]) rest

/-- The observable outcome of one `genericChangeField` request.
`dirty` is the list of `markModified` arguments, `saveCalled` whether
`object.save()` ran, `finalDoc` the in-memory document at the point a
success response was sent, `crashed` a JS `TypeError` (method call on
`null`). -/
structure ChangeFieldResult where
  response : Option (Nat × JsVal)
  finalDoc : Option JsVal
  err : Option ChangeError
  dirty : List String
  saveCalled : Bool
  crashed : Bool

/-- `genericChangeField(req, res)`.  Note: the handler performs no
query-presence check; `model.findOne(query)` runs with whatever filter
(or absence of one) was supplied.  On a null `findOne` result the first
`markModified` (or `save`) call throws a `TypeError`. -/
def genericChangeField (now : Nat) (store : List JsVal) (saveEnabled : Bool)
    (query : Option Query) (changes : List (String × JsVal)) : ChangeFieldResult :=
  match findOne store query with
  | some object =>
      let st := applyChanges now object [] changes
      match st.2.2 with
      | some e =>
          ⟨some (changeErrorStatus e, JsVal.str (changeErrorMsg e)),
           none, some e, st.2.1, false, false⟩
      | none =>
          if saveEnabled then ⟨some (201, st.1), some st.1, none, st.2.1, true, false⟩
          else ⟨some (200, st.1), some st.1, none, st.2.1, false, false⟩
  | none =>
      match changes with
      | [] =>
          if saveEnabled then ⟨none, none, none, [], false, true⟩
          else ⟨some (200, JsVal.null), some JsVal.null, none, [], false, false⟩
      | (p, change) :: _ =>
          match applyOneChange now JsVal.null p change with
          | Except.error e =>
              ⟨some (changeErrorStatus e, JsVal.str (changeErrorMsg e)),
               none, some e, [], false, false⟩
          | Except.ok _ => ⟨none, none, none, [], false, true⟩

/-- C1: an `Append` (`$push`) change on a path absent in the document
creates a single-element array `[v]` at that path and marks the path's
top-level segment dirty (and the change does not error). -/
theorem push_absent_creates_singleton_and_marks_dirty
    (now : Nat) (store : List JsVal) (saveEnabled : Bool) (query : Option Query)
    (fs : List (String × JsVal)) (p : String) (v : JsVal)
    (hfind : findOne store query = some (JsVal.obj fs))
    (habs : jsHas (JsVal.obj fs) (splitDots p) = false) :
    ∃ doc',
      (genericChangeField now store saveEnabled query
          [(p, JsVal.obj [("$push", v)])]).finalDoc = some doc' ∧
      jsGet doc' (splitDots p) = some (JsVal.arr [v]) ∧
      (genericChangeField now store saveEnabled query
          [(p, JsVal.obj [("$push", v)])]).dirty = [firstSeg p] ∧
      (genericChangeField now store saveEnabled query
          [(p, JsVal.obj [("$push", v)])]).err = none := by
  have hne := splitDots_ne_nil p
  obtain ⟨fs1, hfs1⟩ := jsSet_obj_isObj (splitDots p) hne fs (JsVal.arr [])
  have h1 : applyOneChange now (JsVal.obj fs) p (JsVal.obj [("$push", v)]) =
      Except.ok (jsSet (JsVal.obj fs1) (splitDots p) (JsVal.arr [v])) := by
    have hg : jsGet (JsVal.obj fs1) (splitDots p) = some (JsVal.arr []) := by
      rw [← hfs1]; exact jsGet_jsSet_self (splitDots p) hne fs (JsVal.arr [])
    simp only [applyOneChange]
    simp [habs, hfs1, hg]
  have h2 : applyChanges now (JsVal.obj fs) [] [(p, JsVal.obj [("$push", v)])] =
      (jsSet (JsVal.obj fs1) (splitDots p) (JsVal.arr [v]), [firstSeg p], none) := by
    simp [applyChanges, h1]
  refine ⟨jsSet (JsVal.obj fs1) (splitDots p) (JsVal.arr [v]), ?_,
    jsGet_jsSet_self (splitDots p) hne fs1 (JsVal.arr [v]), ?_, ?_⟩ <;>
    simp only [genericChangeField, hfind, h2] <;> cases saveEnabled <;> simp

/-- C1 witness: on the empty document `{}` with path `"tags"` and value
`"c"`, the push creates `{tags: ["c"]}` and marks `"tags"` dirty. -/
theorem push_absent_creates_singleton_witness :
    findOne [JsVal.obj []] none = some (JsVal.obj []) ∧
    jsHas (JsVal.obj []) (splitDots "tags") = false ∧
    ∃ doc',
      (genericChangeField 0 [JsVal.obj []] false none
          [("tags", JsVal.obj [("$push", JsVal.str "c")])]).finalDoc = some doc' ∧
      jsGet doc' (splitDots "tags") = some (JsVal.arr [JsVal.str "c"]) ∧
      (genericChangeField 0 [JsVal.obj []] false none
          [("tags", JsVal.obj [("$push", JsVal.str "c")])]).dirty = [firstSeg "tags"] ∧
      (genericChangeField 0 [JsVal.obj []] false none
          [("tags", JsVal.obj [("$push", JsVal.str "c")])]).err = none :=
  ⟨rfl, rfl,
   push_absent_creates_singleton_and_marks_dirty 0 [JsVal.obj []] false none
     [] "tags" (JsVal.str "c") rfl rfl⟩

/-- C2: an `Append` (`$push`) change on a path holding an existing
non-array value throws the "is not an array" error (the spec's
`TypeMismatch`, surfaced with status 500 by http-errors), leaving the
in-memory document exactly as found and the dirty set empty, with no
save and no success document. -/
theorem push_non_array_type_mismatch
    (now : Nat) (store : List JsVal) (saveEnabled : Bool) (query : Option Query)
    (fs : List (String × JsVal)) (p : String) (v w : JsVal)
    (hfind : findOne store query = some (JsVal.obj fs))
    (hget : jsGet (JsVal.obj fs) (splitDots p) = some w)
    (hnarr : jsIsArr w = false) :
    applyChanges now (JsVal.obj fs) [] [(p, JsVal.obj [("$push", v)])] =
      (JsVal.obj fs, [], some (ChangeError.notAnArray p)) ∧
    (genericChangeField now store saveEnabled query
        [(p, JsVal.obj [("$push", v)])]).err = some (ChangeError.notAnArray p) ∧
    (genericChangeField now store saveEnabled query
        [(p, JsVal.obj [("$push", v)])]).dirty = [] ∧
    (genericChangeField now store saveEnabled query
        [(p, JsVal.obj [("$push", v)])]).finalDoc = none ∧
    (genericChangeField now store saveEnabled query
        [(p, JsVal.obj [("$push", v)])]).saveCalled = false ∧
    (genericChangeField now store saveEnabled query
        [(p, JsVal.obj [("$push", v)])]).response =
      some (500, JsVal.str (p ++ " is not an array")) := by
  have hhas : jsHas (JsVal.obj fs) (splitDots p) = true := by
    simp [jsHas, hget]
  have h1 : applyOneChange now (JsVal.obj fs) p (JsVal.obj [("$push", v)]) =
      Except.error (ChangeError.notAnArray p) := by
    simp only [applyOneChange]
    cases w <;> simp_all [jsIsArr]
  have h2 : applyChanges now (JsVal.obj fs) [] [(p, JsVal.obj [("$push", v)])] =
      (JsVal.obj fs, [], some (ChangeError.notAnArray p)) := by
    simp [applyChanges, h1]
  refine ⟨h2, ?_, ?_, ?_, ?_, ?_⟩ <;>
    simp [genericChangeField, hfind, h2, changeErrorStatus, changeErrorMsg]

/-- C2 witness: the spec scenario — pushing onto a field holding the
scalar `5` fails with the type-mismatch error and touches nothing. -/
theorem push_non_array_type_mismatch_witness :
    findOne [JsVal.obj [("count", JsVal.num 5)]] none =
      some (JsVal.obj [("count", JsVal.num 5)]) ∧
    jsGet (JsVal.obj [("count", JsVal.num 5)]) (splitDots "count") =
      some (JsVal.num 5) ∧
    jsIsArr (JsVal.num 5) = false ∧
    applyChanges 0 (JsVal.obj [("count", JsVal.num 5)]) []
        [("count", JsVal.obj [("$push", JsVal.str "c")])] =
      (JsVal.obj [("count", JsVal.num 5)], [], some (ChangeError.notAnArray "count")) ∧
    (genericChangeField 0 [JsVal.obj [("count", JsVal.num 5)]] false none
        [("count", JsVal.obj [("$push", JsVal.str "c")])]).dirty = [] ∧
    (genericChangeField 0 [JsVal.obj [("count", JsVal.num 5)]] false none
        [("count", JsVal.obj [("$push", JsVal.str "c")])]).saveCalled = false := by
  refine ⟨rfl, rfl, rfl, ?_, ?_, ?_⟩
  · exact (push_non_array_type_mismatch 0 [JsVal.obj [("count", JsVal.num 5)]]
      false none [("count", JsVal.num 5)] "count" (JsVal.str "c") (JsVal.num 5)
      rfl rfl rfl).1
  · exact (push_non_array_type_mismatch 0 [JsVal.obj [("count", JsVal.num 5)]]
      false none [("count", JsVal.num 5)] "count" (JsVal.str "c") (JsVal.num 5)
      rfl rfl rfl).2.2.1
  · exact (push_non_array_type_mismatch 0 [JsVal.obj [("count", JsVal.num 5)]]
      false none [("count", JsVal.num 5)] "count" (JsVal.str "c") (JsVal.num 5)
      rfl rfl rfl).2.2.2.2.1

/-- C9: a `SetStatus` (`$setstatus`) change writes the record
`{code: v, date: now}` at the path, where `now` is the engine's clock at
apply time — the caller-supplied value `v` only ever lands in `code`,
for every `v` — and marks the top-level segment dirty. -/
theorem setstatus_writes_code_and_clock_date
    (now : Nat) (store : List JsVal) (saveEnabled : Bool) (query : Option Query)
    (fs : List (String × JsVal)) (p : String) (v : JsVal)
    (hfind : findOne store query = some (JsVal.obj fs)) :
    (genericChangeField now store saveEnabled query
        [(p, JsVal.obj [("$setstatus", v)])]).finalDoc =
      some (jsSet (JsVal.obj fs) (splitDots p)
        (JsVal.obj [("code", v), ("date", JsVal.date now)])) ∧
    jsGet (jsSet (JsVal.obj fs) (splitDots p)
        (JsVal.obj [("code", v), ("date", JsVal.date now)])) (splitDots p) =
      some (JsVal.obj [("code", v), ("date", JsVal.date now)]) ∧
    (genericChangeField now store saveEnabled query
        [(p, JsVal.obj [("$setstatus", v)])]).dirty = [firstSeg p] ∧
    (genericChangeField now store saveEnabled query
        [(p, JsVal.obj [("$setstatus", v)])]).err = none := by
  have hne := splitDots_ne_nil p
  have h1 : applyOneChange now (JsVal.obj fs) p (JsVal.obj [("$setstatus", v)]) =
      Except.ok (jsSet (JsVal.obj fs) (splitDots p)
        (JsVal.obj [("code", v), ("date", JsVal.date now)])) := by
    simp [applyOneChange]
  have h2 : applyChanges now (JsVal.obj fs) [] [(p, JsVal.obj [("$setstatus", v)])] =
      (jsSet (JsVal.obj fs) (splitDots p)
        (JsVal.obj [("code", v), ("date", JsVal.date now)]), [firstSeg p], none) := by
    simp [applyChanges, h1]
  refine ⟨?_, jsGet_jsSet_self (splitDots p) hne fs _, ?_, ?_⟩ <;>
    simp only [genericChangeField, hfind, h2] <;> cases saveEnabled <;> simp

/-- C9 witness: the spec scenario — on `{}`, `$setstatus` at `"status"`
with value `"done"` yields `{status: {code: "done", date: now}}`. -/
theorem setstatus_writes_code_and_clock_date_witness :
    findOne [JsVal.obj []] none = some (JsVal.obj []) ∧
    (genericChangeField 7 [JsVal.obj []] false none
        [("status", JsVal.obj [("$setstatus", JsVal.str "done")])]).finalDoc =
      some (JsVal.obj [("status",
        JsVal.obj [("code", JsVal.str "done"), ("date", JsVal.date 7)])]) ∧
    (genericChangeField 7 [JsVal.obj []] false none
        [("status", JsVal.obj [("$setstatus", JsVal.str "done")])]).dirty =
      ["status"] := by
  refine ⟨rfl, ?_, ?_⟩
  · exact (setstatus_writes_code_and_clock_date 7 [JsVal.obj []] false none
      [] "status" (JsVal.str "done") rfl).1
  · exact (setstatus_writes_code_and_clock_date 7 [JsVal.obj []] false none
      [] "status" (JsVal.str "done") rfl).2.2.1

/-!
## `genericDeleteRoute` (src/router.js lines 373-449)

Field deletion: `deleteFieldsById` descends `object[field]` per entry
(selecting an array element by `_id.equals(id)` when `id` is present),
splices the resolved element out of its parent array, and then calls
`object.markModified(deleteFieldsById[0])` — passing the first
*descriptor object*, not a field-name string.  `deleteFields` deletes
top-level properties, `deleteArray` empties a field, `deleteAll`
removes the document.  `markModified` arguments are therefore modelled
as `JsVal` here, so the descriptor-object argument is representable.
-/

/-- One entry of `deleteFieldsById`: `{field, id}`. -/
structure DeleteFieldSpec where
  field : String
  id : Option String

/-- The JS value of a `deleteFieldsById` entry, as it is passed to
`markModified`. -/
def specToJsVal (s : DeleteFieldSpec) : JsVal :=
  JsVal.obj [("field", JsVal.str s.field),
    ("id", match s.id with | some i => JsVal.str i | none => JsVal.null)]

/-- `e._id.equals(i)`: `some` the comparison result, `none` a JS
`TypeError` (element without an `_id` ObjectId has no `.equals`). -/
def idEqPred (v : JsVal) (i : String) : Option Bool :=
  match v with
  | JsVal.obj fs =>
      match objGet fs "_id" with
      | some (JsVal.oid s) => some (s == i)
      | _ => none
  | _ => none

/-- `elems.find(e => e._id.equals(i))` returning the index:
`none` = predicate threw, `some none` = no match, `some (some n)` =
match at index `n`. -/
def findIdxEqAux (i : String) : Nat → List JsVal → Option (Option Nat)
  | _, [] => some none
  | n, e :: rest =>
      match idEqPred e i with
      | none => none
      | some true => some (some n)
      | some false => findIdxEqAux i (n + 1) rest

def findIdxEq (elems : List JsVal) (i : String) : Option (Option Nat) :=
  findIdxEqAux i 0 elems

/-- `l.splice(start, 1)` result: JS clamps a negative `start` to
`length + start` (so the `-1` of a failed `indexOf` removes the last
element), and an out-of-range start removes nothing. -/
def spliceRemoveOne (l : List JsVal) (start : Int) : List JsVal :=
  let s : Nat :=
    if start < 0 then (start + l.length).toNat else min start.toNat l.length
  l.take s ++ l.drop (s + 1)

/-- The `deleteFieldsById` loop and final splice.  The loop keeps
`previousObject = currentObject[field]` and, when `id` is present,
`currentObject = previousObject.find(e => e._id.equals(id))`; after the
loop, `previousObject.splice(previousObject.indexOf(currentObject), 1)`.
`indexOf` compares by reference: the found element is at its own index;
an absent match (or `id == null`, where `currentObject` is the array
itself) yields `-1` and the splice removes the last element.  In-place
mutation of the resolved descendant is written back along the access
path.  `none` is a JS `TypeError` (e.g. `.find`/`.indexOf` on a
non-array, or descending through an `undefined` match). -/
def deleteByIds : JsVal → List DeleteFieldSpec → Option JsVal
  | _, [] => none
  | JsVal.obj fs, spec :: rest =>
      match spec.id with
      | some i =>
          match objGet fs spec.field with
          | some (JsVal.arr elems) =>
              match findIdxEq elems i with
              | none => none
              | some (some idx) =>
                  match rest with
                  | [] =>
                      some (JsVal.obj (objSet fs spec.field
                        (JsVal.arr (spliceRemoveOne elems (Int.ofNat idx)))))
                  | _ :: _ =>
                      match elems.get? idx with
                      | some e =>
                          (deleteByIds e rest).map fun e' =>
                            JsVal.obj (objSet fs spec.field
                              (JsVal.arr (elems.set idx e')))
                      | none => none
              | some none =>
                  match rest with
                  | [] =>
                      some (JsVal.obj (objSet fs spec.field
                        (JsVal.arr (spliceRemoveOne elems (-1)))))
                  | _ :: _ => none
          | _ => none
      | none =>
          match rest with
          | [] =>
              match objGet fs spec.field with
              | some (JsVal.arr elems) =>
                  some (JsVal.obj (objSet fs spec.field
                    (JsVal.arr (spliceRemoveOne elems (-1)))))
              | _ => none
          | _ :: _ =>
              match objGet fs spec.field with
              | some w => (deleteByIds w rest).map fun w' =>
                  JsVal.obj (objSet fs spec.field w')
              | none => none
  | _, _ :: _ => none

/-- `delete object[f]`. -/
def deleteFieldStep (o : JsVal) (f : String) : JsVal :=
  match o with
  | JsVal.obj fs => JsVal.obj (objRemove fs f)
  | v => v

/-- `object[f] = v` on a top-level field. -/
def setTopField (o : JsVal) (f : String) (v : JsVal) : JsVal :=
  match o with
  | JsVal.obj fs => JsVal.obj (objSet fs f v)
  | w => w

/-- Outcome of one `genericDeleteRoute` request.  `dirty` holds the
`markModified` arguments as JS values (the `deleteFieldsById` branch
passes an object, not a string); `removeCalled` is `object.remove()`. -/
structure DeleteResult where
  response : Option (Nat × JsVal)
  finalDoc : Option JsVal
  dirty : List JsVal
  saveCalled : Bool
  removeCalled : Bool
  crashed : Bool

/-- The common tail of `genericDeleteRoute`: dry-run returns the
document, otherwise `object.save()` runs (modelled as succeeding). -/
def deleteFinish (saveEnabled : Bool) (doc : JsVal) (dirty : List JsVal) :
    DeleteResult :=
  if saveEnabled then ⟨some (200, doc), some doc, dirty, true, false, false⟩
  else ⟨some (200, doc), some doc, dirty, false, false, false⟩

/-- The request body of `genericDeleteRoute` (`deleteAll` as presence;
JS truthiness of empty strings/arrays is collapsed into `Option`). -/
structure DeleteReq where
  query : Option Query
  deleteFields : Option (List String)
  deleteFieldsById : Option (List DeleteFieldSpec)
  deleteAll : Bool
  deleteArray : Option String

/-- `genericDeleteRoute(req, res)`: guard checks, `findOne`, then the
`deleteFieldsById` / `deleteAll` / `deleteFields` / `deleteArray`
branches in source order, then the shared dry-run/save tail. -/
def genericDeleteRoute (store : List JsVal) (saveEnabled : Bool)
    (req : DeleteReq) : DeleteResult :=
  if req.deleteFields.isNone && req.deleteFieldsById.isNone &&
      !req.deleteAll && req.deleteArray.isNone then
    ⟨some (400, JsVal.str "Nothing to delete!"), none, [], false, false, false⟩
  else if req.query.isNone then
    ⟨some (500, JsVal.str "No query"), none, [], false, false, false⟩
  else
    match findOne store req.query with
    | none =>
        ⟨some (500, JsVal.obj [("gigitError", JsVal.str "no objects found ")]),
         none, [], false, false, false⟩
    | some object =>
        match req.deleteFieldsById with
        | some specs =>
            match deleteByIds object specs with
            | none => ⟨none, none, [], false, false, true⟩
            | some object1 =>
                deleteFinish saveEnabled object1
                  [match specs with
                   | s :: _ => specToJsVal s
                   | [] => JsVal.null]
        | none =>
            if req.deleteAll then
              if saveEnabled then
                ⟨some (200, object), some object, [], false, true, false⟩
              else
                ⟨some (200, object), some object, [], false, false, false⟩
            else
              match req.deleteFields with
              | some flds =>
                  deleteFinish saveEnabled (flds.foldl deleteFieldStep object)
                    (flds.map JsVal.str)
              | none =>
                  match req.deleteArray with
                  | some da =>
                      deleteFinish saveEnabled (setTopField object da (JsVal.arr []))
                        [JsVal.str da]
                  | none =>
                      ⟨some (400, JsVal.str "Nothing to delete!"),
                       none, [], false, false, false⟩

/-- A two-element `items` array whose first element is selected by
`_id` in the dirty-tracking scenario below. -/
def itemsElem1 : JsVal :=
  JsVal.obj [("_id", JsVal.oid "1"), ("name", JsVal.str "a")]

def itemsElem2 : JsVal :=
  JsVal.obj [("_id", JsVal.oid "2"), ("name", JsVal.str "b")]

def itemsDoc : JsVal :=
  JsVal.obj [("_id", JsVal.oid "d"), ("items", JsVal.arr [itemsElem1, itemsElem2])]

/-- A `deleteFieldsById` request removing `items` element `_id = "1"`. -/
def itemsDeleteReq : DeleteReq :=
  ⟨some [], none, some [⟨"items", some "1"⟩], false, none⟩

/-- C5 (violated by the code): a persisted `deleteFieldsById` deletion
touches the `items` field, yet the dirty set never receives the
top-level string segment `"items"` — the code passes the whole
descriptor object `{field: "items", id: "1"}` to `markModified`
(`object.markModified(deleteFieldsById[0])`, line 411), so the save
runs with the spliced array unmarked. -/
theorem delete_by_id_marks_descriptor_not_field :
    (genericDeleteRoute [itemsDoc] true itemsDeleteReq).dirty =
      [JsVal.obj [("field", JsVal.str "items"), ("id", JsVal.str "1")]] ∧
    JsVal.str "items" ∉ (genericDeleteRoute [itemsDoc] true itemsDeleteReq).dirty ∧
    (genericDeleteRoute [itemsDoc] true itemsDeleteReq).saveCalled = true ∧
    (genericDeleteRoute [itemsDoc] true itemsDeleteReq).finalDoc =
      some (JsVal.obj [("_id", JsVal.oid "d"), ("items", JsVal.arr [itemsElem2])]) := by
  have hd : (genericDeleteRoute [itemsDoc] true itemsDeleteReq).dirty =
      [JsVal.obj [("field", JsVal.str "items"), ("id", JsVal.str "1")]] := rfl
  refine ⟨hd, ?_, rfl, rfl⟩
  rw [hd]
  simp

/-!
## `removeArrayDuplicates` (src/router.js lines 847-889)

Deduplicate-by-key: `object[arrayField].filter(...)` keeps an element
when its key is `null` (unresolvable) or not seen before, recording
seen keys in `objectKeys`.  The key is `currentObject.toString()` when
no `uniqueField` is given (for identifier elements this is the
element's own identifier string), else
`currentObject[uniqueField] != null ? ...toString() : null`.
-/

/-- The key computed for one element, or `none` for the JS `TypeError`
a `null` element raises (`null.toString()` / `null[k]`). -/
def fieldKeyE (uniqueField : Option String) (v : JsVal) : Option (Option String) :=
  match v with
  | JsVal.null => none
  | _ =>
      match uniqueField with
      | none => some (some (jsToString v))
      | some k =>
          match v with
          | JsVal.obj fs =>
              match objGet fs k with
              | some JsVal.null => some none
              | some w => some (some (jsToString w))
              | none => some none
          | _ => some none

/-- The `filter` body with its `objectKeys` seen-set accumulator;
`none` aborts the whole filter (predicate threw). -/
def removeDupesGo (u : Option String) : List String → List JsVal → Option (List JsVal)
  | _, [] => some []
  | seen, x :: rest =>
      match fieldKeyE u x with
      | none => none
      | some none => (removeDupesGo u seen rest).map (x :: ·)
      | some (some k) =>
          if seen.contains k then removeDupesGo u seen rest
          else (removeDupesGo u (k :: seen) rest).map (x :: ·)

/-- Does the element resolve to key `k`? -/
def keyIs (u : Option String) (k : String) (x : JsVal) : Bool :=
  fieldKeyE u x == some (some k)

/-- Is the element's key unresolvable (`null`)? -/
def keyIsNull (u : Option String) (x : JsVal) : Bool :=
  fieldKeyE u x == some none

structure RemoveDupResult where
  response : Option (Nat × JsVal)
  finalDoc : Option JsVal
  dirty : List String
  saveCalled : Bool
  crashed : Bool

/-- `removeArrayDuplicates(req, res)`: `findOne` (a null result crashes
at `object[arrayField]` — the code has no null check), filter when the
field is an array (404 otherwise), `markModified(arrayField)`, then
dry-run return or save. -/
def removeArrayDuplicates (store : List JsVal) (saveEnabled : Bool)
    (query : Option Query) (uniqueField : Option String) (arrayField : String) :
    RemoveDupResult :=
  match findOne store query with
  | none => ⟨none, none, [], false, true⟩
  | some (JsVal.obj fs) =>
      match objGet fs arrayField with
      | some (JsVal.arr elems) =>
          match removeDupesGo uniqueField [] elems with
          | none => ⟨none, none, [], false, true⟩
          | some elems1 =>
              let object1 := JsVal.obj (objSet fs arrayField (JsVal.arr elems1))
              if saveEnabled then
                ⟨some (200, object1), some object1, [arrayField], true, false⟩
              else
                ⟨some (200, object1), some object1, [arrayField], false, false⟩
      | _ => ⟨some (404, JsVal.str "Array not found!"), none, [], false, false⟩
  | some _ => ⟨some (404, JsVal.str "Array not found!"), none, [], false, false⟩

/-- The kept elements form a subsequence of the original array
(original relative order, no reordering). -/
theorem removeDupesGo_sublist (u : Option String) :
    ∀ (l : List JsVal) (seen : List String) (res : List JsVal),
      removeDupesGo u seen l = some res → res.Sublist l := by
  intro l
  induction l with
  | nil =>
      intro seen res h
      simp only [removeDupesGo, Option.some.injEq] at h
      subst h
      exact List.nil_sublist []
  | cons x rest ih =>
      intro seen res h
      simp only [removeDupesGo] at h
      cases hk : fieldKeyE u x with
      | none => simp only [hk] at h; exact absurd h (by simp)
      | some ko =>
          cases ko with
          | none =>
              simp only [hk] at h
              obtain ⟨res', hres', rfl⟩ := Option.map_eq_some'.mp h
              exact (ih seen res' hres').cons₂ x
          | some k =>
              simp only [hk] at h
              by_cases hc : seen.contains k
              · rw [if_pos hc] at h
                exact (ih seen res h).cons x
              · rw [if_neg hc] at h
                obtain ⟨res', hres', rfl⟩ := Option.map_eq_some'.mp h
                exact (ih (k :: seen) res' hres').cons₂ x

/-- Among elements resolving to a given key `k0`, the filter keeps
exactly the first one not already seen: starting from an empty seen
set, the kept elements with key `k0` are `take 1` of the original ones. -/
theorem removeDupesGo_filter_key (u : Option String) (k0 : String) :
    ∀ (l : List JsVal) (seen : List String) (res : List JsVal),
      removeDupesGo u seen l = some res →
      res.filter (keyIs u k0) =
        if seen.contains k0 then [] else (l.filter (keyIs u k0)).take 1 := by
  intro l
  induction l with
  | nil =>
      intro seen res h
      simp only [removeDupesGo, Option.some.injEq] at h
      subst h
      simp
  | cons x rest ih =>
      intro seen res h
      simp only [removeDupesGo] at h
      cases hk : fieldKeyE u x with
      | none => simp only [hk] at h; exact absurd h (by simp)
      | some ko =>
          cases ko with
          | none =>
              simp only [hk] at h
              obtain ⟨res', hres', rfl⟩ := Option.map_eq_some'.mp h
              have hx : keyIs u k0 x = false := by simp [keyIs, hk]
              simp only [List.filter_cons, hx, Bool.false_eq_true, if_false]
              exact ih seen res' hres'
          | some k =>
              simp only [hk] at h
              by_cases hkk : k0 = k
              · by_cases hc : seen.contains k
                · rw [if_pos hc] at h
                  have hrec := ih seen res h
                  have hc0 : seen.contains k0 = true := by rw [hkk]; exact hc
                  rw [hrec, if_pos hc0, if_pos hc0]
                · rw [if_neg hc] at h
                  obtain ⟨res', hres', rfl⟩ := Option.map_eq_some'.mp h
                  have hrec := ih (k :: seen) res' hres'
                  have hx : keyIs u k0 x = true := by
                    unfold keyIs
                    rw [hk, hkk]
                    exact beq_self_eq_true _
                  have hck : (k :: seen).contains k0 = true := by
                    rw [hkk, List.contains_cons, beq_self_eq_true, Bool.true_or]
                  have hres'f : res'.filter (keyIs u k0) = [] := by
                    rw [hrec, if_pos hck]
                  have hc0 : seen.contains k0 = false := by
                    rw [hkk]
                    simpa using hc
                  have hmem : k0 ∉ seen := by simpa using hc0
                  simp [List.filter_cons, hx, hres'f, hmem]
              · have hbeq : (k0 == k) = false := beq_eq_false_iff_ne.mpr hkk
                have hx : keyIs u k0 x = false := by
                  unfold keyIs
                  rw [hk, beq_eq_false_iff_ne]
                  intro hcon
                  apply hkk
                  injection hcon with h1
                  injection h1 with h2
                  exact h2.symm
                by_cases hc : seen.contains k
                · rw [if_pos hc] at h
                  have hrec := ih seen res h
                  simp only [List.filter_cons, hx, Bool.false_eq_true, if_false]
                  exact hrec
                · rw [if_neg hc] at h
                  obtain ⟨res', hres', rfl⟩ := Option.map_eq_some'.mp h
                  have hrec := ih (k :: seen) res' hres'
                  have hcc : (k :: seen).contains k0 = seen.contains k0 := by
                    rw [List.contains_cons, hbeq, Bool.false_or]
                  simp only [List.filter_cons, hx, Bool.false_eq_true, if_false]
                  rw [hrec, hcc]

/-- Every element whose key is unresolvable (`null`) is retained: the
null-keyed elements of the result are exactly those of the input, in
order. -/
theorem removeDupesGo_filter_null (u : Option String) :
    ∀ (l : List JsVal) (seen : List String) (res : List JsVal),
      removeDupesGo u seen l = some res →
      res.filter (keyIsNull u) = l.filter (keyIsNull u) := by
  intro l
  induction l with
  | nil =>
      intro seen res h
      simp only [removeDupesGo, Option.some.injEq] at h
      subst h
      simp
  | cons x rest ih =>
      intro seen res h
      simp only [removeDupesGo] at h
      cases hk : fieldKeyE u x with
      | none => simp only [hk] at h; exact absurd h (by simp)
      | some ko =>
          cases ko with
          | none =>
              simp only [hk] at h
              obtain ⟨res', hres', rfl⟩ := Option.map_eq_some'.mp h
              have hx : keyIsNull u x = true := by simp [keyIsNull, hk]
              simp only [List.filter_cons, hx, if_true]
              rw [ih seen res' hres']
          | some k =>
              simp only [hk] at h
              have hx : keyIsNull u x = false := by simp [keyIsNull, hk]
              by_cases hc : seen.contains k
              · rw [if_pos hc] at h
                simp only [List.filter_cons, hx, Bool.false_eq_true, if_false]
                exact ih seen res h
              · rw [if_neg hc] at h
                obtain ⟨res', hres', rfl⟩ := Option.map_eq_some'.mp h
                simp only [List.filter_cons, hx, Bool.false_eq_true, if_false]
                exact ih (k :: seen) res' hres'

/-- C4: deduplicate-by-key retains, per distinct resolved key, exactly
the first element of the array (the element's own stringification — for
identifier elements, their identifier string — when no key field is
given, else the stringified key sub-field), preserves the original
relative order (the result is a subsequence), and always retains every
element whose key is unresolvable; the route stores the filtered array
back into the field and marks that field dirty. -/
theorem remove_duplicates_keeps_first_per_key
    (store : List JsVal) (saveEnabled : Bool) (query : Option Query)
    (u : Option String) (af : String) (fs : List (String × JsVal))
    (elems res : List JsVal)
    (hfind : findOne store query = some (JsVal.obj fs))
    (harr : objGet fs af = some (JsVal.arr elems))
    (hgo : removeDupesGo u [] elems = some res) :
    res.Sublist elems ∧
    (∀ k : String, res.filter (keyIs u k) = (elems.filter (keyIs u k)).take 1) ∧
    res.filter (keyIsNull u) = elems.filter (keyIsNull u) ∧
    (∀ s : String, fieldKeyE none (JsVal.oid s) = some (some s)) ∧
    (removeArrayDuplicates store saveEnabled query u af).finalDoc =
      some (JsVal.obj (objSet fs af (JsVal.arr res))) ∧
    (removeArrayDuplicates store saveEnabled query u af).dirty = [af] := by
  refine ⟨removeDupesGo_sublist u elems [] res hgo, ?_,
    removeDupesGo_filter_null u elems [] res hgo, fun s => rfl, ?_, ?_⟩
  · intro k
    simpa using removeDupesGo_filter_key u k elems [] res hgo
  · simp only [removeArrayDuplicates, hfind, harr, hgo]
    cases saveEnabled <;> simp
  · simp only [removeArrayDuplicates, hfind, harr, hgo]
    cases saveEnabled <;> simp

/-- The dedup scenario array `[{id:1,k:"x"},{id:2,k:"x"},{id:3,k:"y"}]`. -/
def dedupElem1 : JsVal := JsVal.obj [("id", JsVal.num 1), ("k", JsVal.str "x")]

def dedupElem2 : JsVal := JsVal.obj [("id", JsVal.num 2), ("k", JsVal.str "x")]

def dedupElem3 : JsVal := JsVal.obj [("id", JsVal.num 3), ("k", JsVal.str "y")]

def dedupDoc : JsVal :=
  JsVal.obj [("proposals", JsVal.arr [dedupElem1, dedupElem2, dedupElem3])]

/-- C4 witness: deduplicating the scenario array by key `"k"` keeps
`{id:1,k:"x"}` and `{id:3,k:"y"}`, in order, dropping one duplicate. -/
theorem remove_duplicates_keeps_first_per_key_witness :
    findOne [dedupDoc] none = some (JsVal.obj
      [("proposals", JsVal.arr [dedupElem1, dedupElem2, dedupElem3])]) ∧
    removeDupesGo (some "k") [] [dedupElem1, dedupElem2, dedupElem3] =
      some [dedupElem1, dedupElem3] ∧
    [dedupElem1, dedupElem3].Sublist [dedupElem1, dedupElem2, dedupElem3] ∧
    (removeArrayDuplicates [dedupDoc] false none (some "k") "proposals").finalDoc =
      some (JsVal.obj [("proposals", JsVal.arr [dedupElem1, dedupElem3])]) ∧
    (removeArrayDuplicates [dedupDoc] false none (some "k") "proposals").dirty =
      ["proposals"] := by
  refine ⟨rfl, rfl, ?_, ?_, ?_⟩
  · exact (remove_duplicates_keeps_first_per_key [dedupDoc] false none
      (some "k") "proposals" [("proposals", JsVal.arr [dedupElem1, dedupElem2, dedupElem3])]
      [dedupElem1, dedupElem2, dedupElem3] [dedupElem1, dedupElem3]
      rfl rfl rfl).1
  · exact (remove_duplicates_keeps_first_per_key [dedupDoc] false none
      (some "k") "proposals" [("proposals", JsVal.arr [dedupElem1, dedupElem2, dedupElem3])]
      [dedupElem1, dedupElem2, dedupElem3] [dedupElem1, dedupElem3]
      rfl rfl rfl).2.2.2.2.1
  · exact (remove_duplicates_keeps_first_per_key [dedupDoc] false none
      (some "k") "proposals" [("proposals", JsVal.arr [dedupElem1, dedupElem2, dedupElem3])]
      [dedupElem1, dedupElem2, dedupElem3] [dedupElem1, dedupElem3]
      rfl rfl rfl).2.2.2.2.2

/-!
## `addArrayDuplicates` (src/router.js lines 811-845)

Duplicate-and-append: builds `Object.assign({}, e)` for every element
of `object[arrayField]` and pushes the copies, doubling the array.
`Object.assign` is a *shallow* copy: it copies the element's own
top-level properties only, so any nested object is shared by reference
between an original and its duplicate (and a non-object element yields
an empty object — numbers and booleans have no own enumerable
properties, a string spreads into indexed characters).

Two embeddings: a tree-level route model (`addArrayDuplicates`, where
reference sharing is not observable), and a heap model
(`addArrayDuplicatesHeap`) making object identity explicit so the
aliasing behaviour of the shallow copy can be stated.
-/

/-- `Object.assign({}, v)` at tree level. -/
def objectAssignEmpty : JsVal → JsVal
  | JsVal.obj fs => JsVal.obj fs
  | JsVal.str s =>
      JsVal.obj (s.data.enum.map fun p => (toString p.1, JsVal.str p.2.toString))
  | _ => JsVal.obj []

structure AddDupResult where
  response : Option (Nat × JsVal)
  finalDoc : Option JsVal
  dirty : List String
  saveCalled : Bool
  crashed : Bool

/-- `addArrayDuplicates(req, res)`: `findOne` (a null result crashes at
`object[arrayField]` — no null check), copy-and-append when the field
is an array (404 otherwise), `markModified(arrayField)`, then dry-run
return or save. -/
def addArrayDuplicates (store : List JsVal) (saveEnabled : Bool)
    (query : Option Query) (arrayField : String) : AddDupResult :=
  match findOne store query with
  | none => ⟨none, none, [], false, true⟩
  | some (JsVal.obj fs) =>
      match objGet fs arrayField with
      | some (JsVal.arr elems) =>
          let duplicates := elems.map objectAssignEmpty
          let object1 := JsVal.obj (objSet fs arrayField (JsVal.arr (elems ++ duplicates)))
          if saveEnabled then
            ⟨some (200, object1), some object1, [arrayField], true, false⟩
          else
            ⟨some (200, object1), some object1, [arrayField], false, false⟩
      | _ => ⟨some (404, JsVal.str "Array not found!"), none, [], false, false⟩
  | some _ => ⟨some (404, JsVal.str "Array not found!"), none, [], false, false⟩

/-- A heap value: a primitive or a reference to a heap object. -/
inductive HVal where
  | prim (n : Int)
  | ref (a : Nat)

/-- A heap object: its own properties.  Addresses index the heap list. -/
structure HObj where
  fields : List (String × HVal)

/-- The field list of the object at address `a`. -/
def heapGet (h : List HObj) (a : Nat) : List (String × HVal) :=
  ((h[a]?).map HObj.fields).getD []

/-- Association-list lookup on heap-object fields. -/
def hfGet : List (String × HVal) → String → Option HVal
  | [], _ => none
  | (k', v') :: rest, k => if k' = k then some v' else hfGet rest k

/-- The object built by `Object.assign({}, v)`: for a reference, a new
object with *the same own property list* (nested references copied
as references — shared); for a primitive, an empty object. -/
def assignCopyObj (h : List HObj) (v : HVal) : HObj :=
  match v with
  | HVal.ref a => ⟨heapGet h a⟩
  | HVal.prim _ => ⟨[]⟩

/-- Allocate the shallow copy at a fresh address (the end of the heap). -/
def shallowCopy (h : List HObj) (v : HVal) : List HObj × HVal :=
  (h ++ [assignCopyObj h v], HVal.ref h.length)

/-- The first `forEach`: build the `duplicates` list in order, threading
the heap. -/
def copyAll : List HObj → List HVal → List HObj × List HVal
  | h, [] => (h, [])
  | h, v :: rest =>
      let p := shallowCopy h v
      let q := copyAll p.1 rest
      (q.1, p.2 :: q.2)

/-- The array-core of `addArrayDuplicates` on the heap: copy every
element, then push every copy. -/
def addArrayDuplicatesHeap (h : List HObj) (elems : List HVal) :
    List HObj × List HVal :=
  let p := copyAll h elems
  (p.1, elems ++ p.2)

/-- Every reference points into the heap. -/
def refValidB (h : List HObj) : HVal → Bool
  | HVal.prim _ => true
  | HVal.ref a => a < h.length

/-- `v[k]` through the heap (one nesting level). -/
def dupFieldRef (h : List HObj) (v : HVal) (k : String) : Option HVal :=
  match v with
  | HVal.ref a => hfGet (heapGet h a) k
  | HVal.prim _ => none

/-- The claim's independence property between an element and its
duplicate: no heap reference occurs in the structure of both. -/
def NoSharedRefs (h : List HObj) (v w : HVal) : Prop :=
  ∀ k a, dupFieldRef h v k = some (HVal.ref a) → dupFieldRef h w k ≠ some (HVal.ref a)

theorem heapGet_append (h t : List HObj) (a : Nat) (ha : a < h.length) :
    heapGet (h ++ t) a = heapGet h a := by
  unfold heapGet
  rw [List.getElem?_append_left ha]

theorem assignCopyObj_append (h t : List HObj) (v : HVal)
    (hv : refValidB h v = true) :
    assignCopyObj (h ++ t) v = assignCopyObj h v := by
  cases v with
  | prim n => rfl
  | ref a =>
      simp only [refValidB, decide_eq_true_eq] at hv
      simp only [assignCopyObj, heapGet_append h t a hv]

theorem refValidB_append (h t : List HObj) (v : HVal)
    (hv : refValidB h v = true) : refValidB (h ++ t) v = true := by
  cases v with
  | prim n => rfl
  | ref a =>
      simp only [refValidB, decide_eq_true_eq, List.length_append] at hv ⊢
      omega

/-- Characterization of the copy pass: it appends, in order, one shallow
copy per element (field lists taken from the pre-pass heap) and returns
references to those fresh addresses. -/
theorem copyAll_eq (elems : List HVal) :
    ∀ (h : List HObj), (∀ v ∈ elems, refValidB h v = true) →
      copyAll h elems =
        (h ++ elems.map (fun v => assignCopyObj h v),
         (List.range elems.length).map fun i => HVal.ref (h.length + i)) := by
  induction elems with
  | nil => intro h _; simp [copyAll]
  | cons v rest ih =>
      intro h hval
      have hv : refValidB h v = true := hval v (List.mem_cons_self v rest)
      have hrest : ∀ w ∈ rest, refValidB (h ++ [assignCopyObj h v]) w = true :=
        fun w hw => refValidB_append h _ w (hval w (List.mem_cons_of_mem v hw))
      simp only [copyAll, shallowCopy]
      rw [ih (h ++ [assignCopyObj h v]) hrest]
      refine Prod.ext ?_ ?_
      · show h ++ [assignCopyObj h v] ++
          rest.map (fun w => assignCopyObj (h ++ [assignCopyObj h v]) w) =
          h ++ (v :: rest).map (fun w => assignCopyObj h w)
        rw [List.map_congr_left fun w hw =>
          assignCopyObj_append h [assignCopyObj h v] w (hval w (List.mem_cons_of_mem v hw))]
        simp
      · show HVal.ref h.length ::
          (List.range rest.length).map (fun i => HVal.ref ((h ++ [assignCopyObj h v]).length + i)) =
          (List.range (v :: rest).length).map fun i => HVal.ref (h.length + i)
        have hlen : (h ++ [assignCopyObj h v]).length = h.length + 1 := by simp
        rw [hlen, List.length_cons, List.range_succ_eq_map, List.map_cons, List.map_map]
        refine congrArg₂ _ (by norm_num) ?_
        refine List.map_congr_left fun i _ => ?_
        show HVal.ref (h.length + 1 + i) = HVal.ref (h.length + Nat.succ i)
        exact congrArg HVal.ref (by omega)

/-- C3 (amended): duplicate-and-append doubles the array; the second
half consists, in order, of references to freshly allocated objects
(addresses at and above the old heap end, so no copy is
identity-aliased to an original *element*) whose own property list is
literally that of the corresponding original — equal by value, but any
nested reference inside an element is thereby shared between the
original and its shallow duplicate (and a primitive element's duplicate
is an empty object). -/
theorem add_duplicates_doubles_with_shallow_copies
    (h : List HObj) (elems : List HVal)
    (hval : ∀ v ∈ elems, refValidB h v = true) :
    addArrayDuplicatesHeap h elems =
      (h ++ elems.map (fun v => assignCopyObj h v),
       elems ++ (List.range elems.length).map fun i => HVal.ref (h.length + i)) ∧
    (addArrayDuplicatesHeap h elems).2.length = 2 * elems.length ∧
    (∀ i (hi : i < elems.length),
      heapGet (addArrayDuplicatesHeap h elems).1 (h.length + i) =
        (assignCopyObj h (elems.get ⟨i, hi⟩)).fields) := by
  have hc := copyAll_eq elems h hval
  have hmain : addArrayDuplicatesHeap h elems =
      (h ++ elems.map (fun v => assignCopyObj h v),
       elems ++ (List.range elems.length).map fun i => HVal.ref (h.length + i)) := by
    unfold addArrayDuplicatesHeap
    rw [hc]
  refine ⟨hmain, ?_, ?_⟩
  · rw [hmain]
    simp only [List.length_append, List.length_map, List.length_range]
    omega
  · intro i hi
    rw [hmain]
    show heapGet (h ++ elems.map fun v => assignCopyObj h v) (h.length + i) = _
    unfold heapGet
    rw [List.getElem?_append_right (by omega)]
    have hidx : h.length + i - h.length = i := by omega
    rw [hidx, List.getElem?_map, List.getElem?_eq_getElem hi]
    rfl

/-- The aliasing scenario: address 0 is a nested object `{x: 1}`,
address 1 an array element `{k: <ref 0>}`. -/
def dupHeap : List HObj :=
  [⟨[("x", HVal.prim 1)]⟩, ⟨[("k", HVal.ref 0)]⟩]

/-- C3 (counterexample to the claim as stated): duplicating the
one-element array `[<ref 1>]` appends the shallow copy `<ref 2>` whose
`"k"` property is the *same reference* `<ref 0>` as the original's —
the original's structure and the duplicate's structure share a
reference, refuting "no shared references between an original
element's structure and its duplicate's structure" (`Object.assign`
copies one level only). -/
theorem add_duplicates_aliases_nested_structure :
    (addArrayDuplicatesHeap dupHeap [HVal.ref 1]).2 = [HVal.ref 1, HVal.ref 2] ∧
    heapGet (addArrayDuplicatesHeap dupHeap [HVal.ref 1]).1 2 =
      heapGet (addArrayDuplicatesHeap dupHeap [HVal.ref 1]).1 1 ∧
    dupFieldRef (addArrayDuplicatesHeap dupHeap [HVal.ref 1]).1 (HVal.ref 1) "k" =
      some (HVal.ref 0) ∧
    dupFieldRef (addArrayDuplicatesHeap dupHeap [HVal.ref 1]).1 (HVal.ref 2) "k" =
      some (HVal.ref 0) ∧
    ¬ NoSharedRefs (addArrayDuplicatesHeap dupHeap [HVal.ref 1]).1
        (HVal.ref 1) (HVal.ref 2) := by
  refine ⟨rfl, rfl, rfl, rfl, ?_⟩
  intro hns
  exact hns "k" 0 rfl rfl

/-- C3 witness for the amended statement, at the aliasing scenario:
the array doubles and the copy is the fresh address 2 with the
original's field list. -/
theorem add_duplicates_doubles_with_shallow_copies_witness :
    (∀ v ∈ [HVal.ref 1], refValidB dupHeap v = true) ∧
    addArrayDuplicatesHeap dupHeap [HVal.ref 1] =
      ([⟨[("x", HVal.prim 1)]⟩, ⟨[("k", HVal.ref 0)]⟩, ⟨[("k", HVal.ref 0)]⟩],
       [HVal.ref 1, HVal.ref 2]) ∧
    (addArrayDuplicatesHeap dupHeap [HVal.ref 1]).2.length = 2 * 1 := by
  have hval : ∀ v ∈ [HVal.ref 1], refValidB dupHeap v = true := by
    intro v hv
    rw [List.mem_singleton] at hv
    subst hv
    rfl
  refine ⟨hval, ?_, ?_⟩
  · rw [(add_duplicates_doubles_with_shallow_copies dupHeap [HVal.ref 1] hval).1]
    rfl
  · exact (add_duplicates_doubles_with_shallow_copies dupHeap [HVal.ref 1] hval).2.1

/-!
## `genericInject` (src/router.js lines 596-653)

Injection at nested depth: `injectToField`/`injectToFieldId` are split
on `"."`; at a level with an id the loop descends into the element of
`currentObject[field]` whose `_id.toString()` equals the id; at a level
without an id it appends `injectData` — except that the code invokes
`currentObject[currentField].push.apply(currentObject, injectArray)`,
whose `this` argument is `currentObject` (the *containing object*), not
`currentObject[currentField]`: `Array.prototype.push` then reads
`this.length` (`undefined`, coerced to 0), writes index properties
`"0"`, `"1"`, ... onto the containing object and sets its `length`。
The special-cased field `enum_opts` instead wraps each datum as
`[{text, language: "en"}]` and assigns the field.
-/

/-- JS `ToLength` of a property used by `Array.prototype.push`
(`undefined` and non-numbers coerce to 0, negatives clamp to 0). -/
def toLengthNat : Option JsVal → Nat
  | some (JsVal.num n) => if n < 0 then 0 else n.toNat
  | _ => 0

/-- Write `elems` at consecutive index keys starting at `start`. -/
def pushProps : List (String × JsVal) → Nat → List JsVal → List (String × JsVal)
  | fs, _, [] => fs
  | fs, start, e :: rest => pushProps (objSet fs (toString start) e) (start + 1) rest

/-- `Array.prototype.push.apply(v, elems)`: on a genuine array it
appends; on a plain object it treats it as array-like — reads `length`,
writes index properties, stores the new `length`. -/
def jsArrayLikePush (v : JsVal) (elems : List JsVal) : JsVal :=
  match v with
  | JsVal.arr l => JsVal.arr (l ++ elems)
  | JsVal.obj fs =>
      let len := toLengthNat (objGet fs "length")
      JsVal.obj (objSet (pushProps fs len elems) "length"
        (JsVal.num (len + elems.length)))
  | w => w

/-- `e._id.toString() === fid`: `none` is the `TypeError` of a missing
or `null` `_id`. -/
def idStrPred (v : JsVal) (fid : String) : Option Bool :=
  match v with
  | JsVal.obj fs =>
      match objGet fs "_id" with
      | some JsVal.null => none
      | some w => some (jsToString w == fid)
      | none => none
  | _ => none

def findIdxStrAux (fid : String) : Nat → List JsVal → Option (Option Nat)
  | _, [] => some none
  | n, e :: rest =>
      match idStrPred e fid with
      | none => none
      | some true => some (some n)
      | some false => findIdxStrAux fid (n + 1) rest

/-- `elems.find(e => e._id.toString() === fid)` as an index:
`none` = predicate threw, `some none` = no match. -/
def findIdxByStr (elems : List JsVal) (fid : String) : Option (Option Nat) :=
  findIdxStrAux fid 0 elems

/-- Pair each path segment with its id when one is supplied
(`subIds.length > index ? subIds[index] : null`). -/
def mkPairs : List String → List String → List (String × Option String)
  | [], _ => []
  | f :: fs, [] => (f, none) :: mkPairs fs []
  | f :: fs, i :: is => (f, some i) :: mkPairs fs is

/-- The `enum_opts` transform: wrap a datum as `[{text, language}]`. -/
def wrapEnumOpt (d : JsVal) : JsVal :=
  JsVal.arr [JsVal.obj [("text", d), ("language", JsVal.str "en")]]

/-- The `for` loop of `genericInject` over the (field, id) levels,
with in-place mutation written back along the id-selected descent;
`none` is a JS `TypeError` (`.find`/`.push` of `undefined`, descent
through a failed match, property assignment on a primitive). -/
def injectStep (injectData : List JsVal) : JsVal → List (String × Option String) → Option JsVal
  | cur, [] => some cur
  | cur, (f, some fid) :: rest =>
      match cur with
      | JsVal.obj fs =>
          match objGet fs f with
          | some (JsVal.arr elems) =>
              match findIdxByStr elems fid with
              | none => none
              | some (some idx) =>
                  match elems.get? idx with
                  | some e =>
                      match injectStep injectData e rest with
                      | some e1 =>
                          some (JsVal.obj (objSet fs f (JsVal.arr (elems.set idx e1))))
                      | none => none
                  | none => none
              | some none =>
                  match rest with
                  | [] => some (JsVal.obj fs)
                  | _ :: _ => none
          | _ => none
      | _ => none
  | cur, (f, none) :: rest =>
      if f = "enum_opts" then
        match cur with
        | JsVal.obj fs =>
            injectStep injectData
              (JsVal.obj (objSet fs f (JsVal.arr (injectData.map wrapEnumOpt)))) rest
        | _ => none
      else
        match cur with
        | JsVal.obj fs =>
            match objGet fs f with
            | some (JsVal.arr _) =>
                injectStep injectData (jsArrayLikePush (JsVal.obj fs) injectData) rest
            | _ => none
        | _ => none

structure InjectResult where
  response : Option (Nat × JsVal)
  finalDoc : Option JsVal
  dirty : List String
  saveCalled : Bool
  crashed : Bool

/-- `genericInject(req, res)`: `findOne` (404 on a null result),
`markModified(subFields[0])` up front, the level loop, then save (200)
or dry-run return (200). -/
def genericInject (store : List JsVal) (saveEnabled : Bool) (query : Option Query)
    (injectData : List JsVal) (injectToField injectToFieldId : String) : InjectResult :=
  match findOne store query with
  | none =>
      ⟨some (404, JsVal.obj [("gigitError", JsVal.str "Not found!")]),
       none, [], false, false⟩
  | some parentObject =>
      let pairs := mkPairs (splitDots injectToField) (splitDots injectToFieldId)
      let dirty := [firstSeg injectToField]
      match injectStep injectData parentObject pairs with
      | none => ⟨none, none, dirty, false, true⟩
      | some parent1 =>
          if saveEnabled then ⟨some (200, parent1), some parent1, dirty, true, false⟩
          else ⟨some (200, parent1), some parent1, dirty, false, false⟩

/-- Injection scenario: document `{_id: p, items: [{_id: 1, tags: ["a"]}]}`,
injecting `"b"` at path `items.tags` selecting `items` element `_id 1`. -/
def injectItem : JsVal :=
  JsVal.obj [("_id", JsVal.oid "1"), ("tags", JsVal.arr [JsVal.str "a"])]

def injectParentDoc : JsVal :=
  JsVal.obj [("_id", JsVal.oid "p"), ("items", JsVal.arr [injectItem])]

/-- What the selected element actually looks like after the inject: the
`tags` array untouched, and the junk index/`length` properties the
mis-targeted `push.apply` wrote onto the element itself. -/
def injectItemAfterFields : List (String × JsVal) :=
  [("_id", JsVal.oid "1"), ("tags", JsVal.arr [JsVal.str "a"]),
   ("0", JsVal.str "b"), ("length", JsVal.num 1)]

/-- C8 (violated by the code): injecting `["b"]` at `items.tags` of the
scenario document leaves `items[0].tags` equal to `["a"]` — nothing is
appended to the target array; instead `push.apply(currentObject, ...)`
writes `"0": "b"` and `length: 1` onto the containing element, because
its `this` argument is `currentObject` rather than
`currentObject[currentField]` (line 636). -/
theorem inject_pushes_onto_containing_object :
    (genericInject [injectParentDoc] false (some []) [JsVal.str "b"]
        "items.tags" "1").finalDoc =
      some (JsVal.obj [("_id", JsVal.oid "p"),
        ("items", JsVal.arr [JsVal.obj injectItemAfterFields])]) ∧
    objGet injectItemAfterFields "tags" = some (JsVal.arr [JsVal.str "a"]) ∧
    objGet injectItemAfterFields "0" = some (JsVal.str "b") ∧
    objGet injectItemAfterFields "length" = some (JsVal.num 1) ∧
    (genericInject [injectParentDoc] false (some []) [JsVal.str "b"]
        "items.tags" "1").dirty = ["items"] ∧
    (genericInject [injectParentDoc] false (some []) [JsVal.str "b"]
        "items.tags" "1").saveCalled = false :=
  ⟨rfl, rfl, rfl, rfl, rfl, rfl⟩

/-!
## `genericTranslate` (src/router.js lines 451-490)

Moves `fromField` values to `toField` on every found object.  Note the
find callback: `if (findError == null) { return res.status(500).send(findError); }`
— the *success* of `model.find` (a null error) is answered with status
500 (sending the null error) before any update is applied, and only the
error branch (where the callback's `objects` argument is `undefined`)
falls through to the `objects.forEach` update loop.
-/

structure Upd where
  fromField : String
  toField : String

/-- The null-propagating descent of the update loop
(`if (currentValue != null) currentValue = currentValue[tok]`), with
a final value of `null` treated like absence by the `!= null` guards. -/
def jsGetNN (o : JsVal) (path : List String) : Option JsVal :=
  match jsGet o path with
  | some JsVal.null => none
  | x => x

/-- One `updates.forEach` body on one object: read and delete
`fromField`'s last token at its parent, then (both-sides-present guard)
assign it at `toField`'s parent; each side marks its top-level token. -/
def translateMove (ou : JsVal × List String) (u : Upd) : JsVal × List String :=
  let src := splitDots u.fromField
  let dirty1 := ou.2 ++ [firstSeg u.fromField]
  let pre := src.dropLast
  let lastTok := src.getLast?.getD ""
  let step1 : Option JsVal × JsVal :=
    match jsGetNN ou.1 pre with
    | some cur =>
        (match cur with
         | JsVal.obj cfs =>
             (match objGet cfs lastTok with
              | some JsVal.null => none
              | x => x)
         | _ => none,
         modifyAtPath ou.1 pre (fun w => deleteFieldStep w lastTok))
    | none => (none, ou.1)
  let dst := splitDots u.toField
  let dirty2 := dirty1 ++ [firstSeg u.toField]
  let dpre := dst.dropLast
  let dlast := dst.getLast?.getD ""
  let object2 :=
    match jsGetNN step1.2 dpre, step1.1 with
    | some _, some w => modifyAtPath step1.2 dpre (fun c => setTopField c dlast w)
    | _, _ => step1.2
  (object2, dirty2)

/-- All updates applied, in order, to one object (`markModified`
arguments accumulated). -/
def translateObject (updates : List Upd) (object : JsVal) : JsVal × List String :=
  updates.foldl translateMove (object, [])

structure TranslateResult where
  response : Option (Nat × JsVal)
  docs : List JsVal
  dirty : List String
  saveCount : Nat
  crashed : Bool

/-- `genericTranslate(req, res)` as the `model.find` callback: the
callback receives `(findError, objects)` — on success `findError` is
null and `objects` the result list, on failure `objects` is undefined.
The code 500s when `findError == null`, and otherwise runs the update
loop (crashing on the undefined `objects`) with one `object.save()`
per object and no response at all. -/
def genericTranslate (findErr : Option JsVal) (objects : Option (List JsVal))
    (updates : List Upd) : TranslateResult :=
  match findErr with
  | none => ⟨some (500, JsVal.null), objects.getD [], [], 0, false⟩
  | some _ =>
      match objects with
      | none => ⟨none, [], [], 0, true⟩
      | some objs =>
          let processed := objs.map (translateObject updates)
          ⟨none, processed.map Prod.fst, (processed.map Prod.snd).flatten,
           objs.length, false⟩

/-- C10: `genericTranslate`'s branches are inverted — whenever the find
succeeds (`findError` null) it responds 500 (sending the null error)
with the objects untouched, no update applied and no save; it reaches
the update/iteration code only when find reported an error, where
`objects` is undefined and the `forEach` throws (and in the
counterfactual error-with-objects case it would save every object
without ever responding). -/
theorem translate_branches_inverted :
    (∀ (objects : Option (List JsVal)) (updates : List Upd),
      genericTranslate none objects updates =
        ⟨some (500, JsVal.null), objects.getD [], [], 0, false⟩) ∧
    (∀ (e : JsVal) (updates : List Upd),
      genericTranslate (some e) none updates = ⟨none, [], [], 0, true⟩) ∧
    (∀ (e : JsVal) (objs : List JsVal) (updates : List Upd),
      (genericTranslate (some e) (some objs) updates).saveCount = objs.length ∧
      (genericTranslate (some e) (some objs) updates).response = none) :=
  ⟨fun _ _ => rfl, fun _ _ => rfl, fun _ _ _ => ⟨rfl, rfl⟩⟩

/-!
## `pushArrayValue` (src/router.js lines 702-741) and
## `addUniqueValuesToList` (src/router.js lines 655-700)
-/

/-- The `idValues` argument of `pushArrayValue`: absent, the literal
string `"object"` (convert the whole value), or a list of sub-field
names to convert. -/
inductive IdValuesArg where
  | absent
  | strObject
  | fields (l : List String)

/-- `idValues.forEach(f => value[f] = ObjectId(value[f]))`; `none` is
the strict-mode `TypeError` of assigning a property on a primitive
(`ObjectId(undefined)`, a fresh id, is abstracted via `mkObjectId` of
`null`). -/
def applyIdFields : JsVal → List String → Option JsVal
  | v, [] => some v
  | JsVal.obj fs, f :: rest =>
      applyIdFields
        (JsVal.obj (objSet fs f (mkObjectId ((objGet fs f).getD JsVal.null)))) rest
  | _, _ :: _ => none

structure PushValueResult where
  response : Option (Nat × JsVal)
  finalDoc : Option JsVal
  dirty : List String
  saveCalled : Bool
  crashed : Bool

/-- `pushArrayValue(req, res)`: `findOne` (404 on null), optional
identifier conversion of `value`, `markModified(field)`, then
`array.push(value)` on `object[field]` (a non-array field is a
`TypeError` — note `markModified` already ran), dry-run return or save. -/
def pushArrayValue (store : List JsVal) (saveEnabled : Bool) (query : Option Query)
    (field : String) (value : JsVal) (idValues : IdValuesArg) : PushValueResult :=
  match findOne store query with
  | none =>
      ⟨some (404, JsVal.obj [("gigitError", JsVal.str "No objects found")]),
       none, [], false, false⟩
  | some object =>
      let valueT : Option JsVal :=
        match idValues with
        | IdValuesArg.strObject => some (mkObjectId value)
        | IdValuesArg.fields l => applyIdFields value l
        | IdValuesArg.absent => some value
      match valueT with
      | none => ⟨none, none, [], false, true⟩
      | some v =>
          match object with
          | JsVal.obj fs =>
              match objGet fs field with
              | some (JsVal.arr elems) =>
                  let object1 := JsVal.obj (objSet fs field (JsVal.arr (elems ++ [v])))
                  if saveEnabled then
                    ⟨some (200, object1), some object1, [field], true, false⟩
                  else
                    ⟨some (200, object1), some object1, [field], false, false⟩
              | _ => ⟨none, none, [field], false, true⟩
          | _ => ⟨none, none, [field], false, true⟩

/-- The `while (array[fields[index]] != null)` descent: follow existing
non-null fields, returning the deepest value reached and the key path
taken (a document field literally named "undefined" is out of model). -/
def whileDescend : JsVal → List String → JsVal × List String
  | v, [] => (v, [])
  | v, f :: rest =>
      match v with
      | JsVal.obj fs =>
          match objGet fs f with
          | some JsVal.null => (JsVal.obj fs, [])
          | some w =>
              let q := whileDescend w rest
              (q.1, f :: q.2)
          | none => (JsVal.obj fs, [])
      | w => (w, [])

/-- `array.find(e => e.equals(currentId))`: `none` is the `TypeError`
of an element without `.equals` (only ObjectId elements are modelled). -/
def findEqualsE : List JsVal → String → Option Bool
  | [], _ => some false
  | JsVal.oid s :: rest, i =>
      if s == i then some true else findEqualsE rest i
  | _ :: _, _ => none

/-- The `idValues.forEach` of `addUniqueValuesToList`: push
`ObjectId(id)` for each id not already present. -/
def addUniqueLoop : List JsVal → List String → Option (List JsVal)
  | elems, [] => some elems
  | elems, i :: rest =>
      match findEqualsE elems i with
      | none => none
      | some true => addUniqueLoop elems rest
      | some false => addUniqueLoop (elems ++ [JsVal.oid i]) rest

structure AddUniqueResult where
  response : Option (Nat × JsVal)
  finalDoc : Option JsVal
  dirty : List String
  saveCalled : Bool
  crashed : Bool

/-- `addUniqueValuesToList(req, res)`: `findOne` (404 on null), the
while-descent to the deepest existing value, the unique-push loop on it
(a non-array target is a `TypeError`), then dry-run return — *before*
`markModified(baseField)`, which only runs on the save path — or save. -/
def addUniqueValuesToList (store : List JsVal) (saveEnabled : Bool)
    (query : Option Query) (field : String) (idValues : List String) :
    AddUniqueResult :=
  match findOne store query with
  | none =>
      ⟨some (404, JsVal.obj [("gigitError", JsVal.str "No objects found")]),
       none, [], false, false⟩
  | some object =>
      let fields := splitDots field
      let baseField := fields.headI
      let d := whileDescend object fields
      match d.1 with
      | JsVal.arr elems =>
          match addUniqueLoop elems idValues with
          | none => ⟨none, none, [], false, true⟩
          | some elems1 =>
              let object1 := modifyAtPath object d.2 (fun _ => JsVal.arr elems1)
              if saveEnabled then
                ⟨some (200, object1), some object1, [baseField], true, false⟩
              else
                ⟨some (200, object1), some object1, [], false, false⟩
      | _ => ⟨none, none, [], false, true⟩

/-- C7 (counterexample to the claim as stated): `genericChangeField`
performs no query-presence check — with the filter absent it does not
fail with any missing-query error but resolves a document via
`findOne(undefined)` and mutates it: here the push succeeds with a 200
response, a mutated document and a dirty mark. -/
theorem change_field_accepts_absent_query :
    (genericChangeField 0 [JsVal.obj [("tags", JsVal.arr [JsVal.str "a"])]] false
        none [("tags", JsVal.obj [("$push", JsVal.str "c")])]).err = none ∧
    (genericChangeField 0 [JsVal.obj [("tags", JsVal.arr [JsVal.str "a"])]] false
        none [("tags", JsVal.obj [("$push", JsVal.str "c")])]).response =
      some (200, JsVal.obj [("tags", JsVal.arr [JsVal.str "a", JsVal.str "c"])]) ∧
    (genericChangeField 0 [JsVal.obj [("tags", JsVal.arr [JsVal.str "a"])]] false
        none [("tags", JsVal.obj [("$push", JsVal.str "c")])]).finalDoc =
      some (JsVal.obj [("tags", JsVal.arr [JsVal.str "a", JsVal.str "c"])]) ∧
    (genericChangeField 0 [JsVal.obj [("tags", JsVal.arr [JsVal.str "a"])]] false
        none [("tags", JsVal.obj [("$push", JsVal.str "c")])]).dirty = ["tags"] :=
  ⟨rfl, rfl, rfl, rfl⟩

/-- C7 (amended): only `genericDeleteRoute` rejects an absent filter —
with a delete directive present and `query == null` it answers
500 "No query" before consulting the store (the result is the same for
every store, with nothing resolved, marked or saved); `genericChangeField`
has no such check and behaves with an absent filter exactly as with the
match-all filter (`findOne(undefined)` = first document). -/
theorem missing_query_rejected_only_in_delete_route :
    (∀ (store : List JsVal) (saveEnabled : Bool) (req : DeleteReq),
      req.query = none →
      (req.deleteFields.isSome || req.deleteFieldsById.isSome ||
        req.deleteAll || req.deleteArray.isSome) = true →
      genericDeleteRoute store saveEnabled req =
        ⟨some (500, JsVal.str "No query"), none, [], false, false, false⟩) ∧
    (∀ (now : Nat) (store : List JsVal) (saveEnabled : Bool)
        (changes : List (String × JsVal)),
      genericChangeField now store saveEnabled none changes =
        genericChangeField now store saveEnabled (some []) changes) := by
  constructor
  · intro store saveEnabled req hq hd
    obtain ⟨q, df, dfb, da, darr⟩ := req
    cases q with
    | some q0 => exact absurd hq (by simp)
    | none =>
        cases df <;> cases dfb <;> cases da <;> cases darr <;>
          simp_all [genericDeleteRoute]
  · intro now store saveEnabled changes
    have hf : findOne store (some []) = findOne store none := by
      show (store.filter fun d => matchesQuery d []).head? = store.head?
      congr 1
      exact List.filter_eq_self.mpr fun d _ => rfl
    unfold genericChangeField
    rw [hf]

/-- C7 witness for the amended statement. -/
theorem missing_query_rejected_only_in_delete_route_witness :
    genericDeleteRoute [] false ⟨none, none, none, false, some "tags"⟩ =
      ⟨some (500, JsVal.str "No query"), none, [], false, false, false⟩ ∧
    genericChangeField 0 [JsVal.obj []] false none [] =
      genericChangeField 0 [JsVal.obj []] false (some []) [] := by
  constructor
  · exact missing_query_rejected_only_in_delete_route.1 [] false
      ⟨none, none, none, false, some "tags"⟩ rfl rfl
  · exact missing_query_rejected_only_in_delete_route.2 0 [JsVal.obj []] false []

/-!
## Dry-run behaviour (`saveEnabled == false`) of every mutating route
-/

theorem genericChangeField_dry (now : Nat) (store : List JsVal)
    (query : Option Query) (changes : List (String × JsVal)) :
    (genericChangeField now store false query changes).saveCalled = false ∧
    (∀ d, (genericChangeField now store false query changes).finalDoc = some d →
      (genericChangeField now store false query changes).response = some (200, d)) := by
  unfold genericChangeField
  cases hf : findOne store query with
  | some object =>
      cases hst : (applyChanges now object [] changes).2.2 with
      | some e => simp [hst]
      | none => simp [hst]
  | none =>
      cases changes with
      | nil => simp
      | cons c rest =>
          obtain ⟨p, ch⟩ := c
          cases hac : applyOneChange now JsVal.null p ch with
          | error e => simp [hac]
          | ok o => simp [hac]

theorem genericDeleteRoute_dry (store : List JsVal) (req : DeleteReq) :
    (genericDeleteRoute store false req).saveCalled = false ∧
    (genericDeleteRoute store false req).removeCalled = false ∧
    (∀ d, (genericDeleteRoute store false req).finalDoc = some d →
      (genericDeleteRoute store false req).response = some (200, d)) := by
  unfold genericDeleteRoute
  split
  · simp
  · split
    · simp
    · cases hf : findOne store req.query with
      | none => simp [hf]
      | some object =>
          simp only [hf]
          cases hb : req.deleteFieldsById with
          | some specs =>
              simp only [hb]
              cases hd : deleteByIds object specs with
              | none => simp [hd]
              | some o1 => simp [hd, deleteFinish]
          | none =>
              simp only [hb]
              cases hda2 : req.deleteAll with
              | true => simp [hda2]
              | false =>
                  simp only [hda2, Bool.false_eq_true, if_false]
                  cases hdf : req.deleteFields with
                  | some flds => simp [hdf, deleteFinish]
                  | none =>
                      simp only [hdf]
                      cases hda : req.deleteArray with
                      | some da => simp [hda, deleteFinish]
                      | none => simp [hda]

theorem addArrayDuplicates_dry (store : List JsVal) (query : Option Query)
    (af : String) :
    (addArrayDuplicates store false query af).saveCalled = false ∧
    (∀ d, (addArrayDuplicates store false query af).finalDoc = some d →
      (addArrayDuplicates store false query af).response = some (200, d)) := by
  unfold addArrayDuplicates
  cases hf : findOne store query with
  | none => simp [hf]
  | some object =>
      simp only [hf]
      cases object with
      | obj fs =>
          cases hg : objGet fs af with
          | none => simp [hg]
          | some w => cases w <;> simp [hg]
      | null => simp
      | num n => simp
      | str s => simp
      | oid s => simp
      | date t => simp
      | arr l => simp

theorem removeArrayDuplicates_dry (store : List JsVal) (query : Option Query)
    (u : Option String) (af : String) :
    (removeArrayDuplicates store false query u af).saveCalled = false ∧
    (∀ d, (removeArrayDuplicates store false query u af).finalDoc = some d →
      (removeArrayDuplicates store false query u af).response = some (200, d)) := by
  unfold removeArrayDuplicates
  cases hf : findOne store query with
  | none => simp [hf]
  | some object =>
      simp only [hf]
      cases object with
      | obj fs =>
          cases hg : objGet fs af with
          | none => simp [hg]
          | some w =>
              cases w <;> simp only [hg] <;> try simp
              case arr elems =>
                cases hgo : removeDupesGo u [] elems with
                | none => simp [hgo]
                | some elems1 => simp [hgo]
      | null => simp
      | num n => simp
      | str s => simp
      | oid s => simp
      | date t => simp
      | arr l => simp

theorem genericInject_dry (store : List JsVal) (query : Option Query)
    (injectData : List JsVal) (f fid : String) :
    (genericInject store false query injectData f fid).saveCalled = false ∧
    (∀ d, (genericInject store false query injectData f fid).finalDoc = some d →
      (genericInject store false query injectData f fid).response = some (200, d)) := by
  unfold genericInject
  cases hf : findOne store query with
  | none => simp [hf]
  | some parentObject =>
      simp only [hf]
      cases hstep : injectStep injectData parentObject
          (mkPairs (splitDots f) (splitDots fid)) with
      | none => simp [hstep]
      | some parent1 => simp [hstep]

theorem pushArrayValue_dry (store : List JsVal) (query : Option Query)
    (field : String) (value : JsVal) (idValues : IdValuesArg) :
    (pushArrayValue store false query field value idValues).saveCalled = false ∧
    (∀ d, (pushArrayValue store false query field value idValues).finalDoc = some d →
      (pushArrayValue store false query field value idValues).response = some (200, d)) := by
  unfold pushArrayValue
  cases hf : findOne store query with
  | none => simp [hf]
  | some object =>
      simp only [hf]
      cases idValues with
      | strObject =>
          cases object with
          | obj fs =>
              cases hg : objGet fs field with
              | none => simp [hg]
              | some w => cases w <;> simp [hg]
          | null => simp
          | num n => simp
          | str s => simp
          | oid s => simp
          | date t => simp
          | arr l => simp
      | absent =>
          cases object with
          | obj fs =>
              cases hg : objGet fs field with
              | none => simp [hg]
              | some w => cases w <;> simp [hg]
          | null => simp
          | num n => simp
          | str s => simp
          | oid s => simp
          | date t => simp
          | arr l => simp
      | fields l =>
          cases hap : applyIdFields value l with
          | none => simp [hap]
          | some v =>
              simp only [hap]
              cases object with
              | obj fs =>
                  cases hg : objGet fs field with
                  | none => simp [hg]
                  | some w => cases w <;> simp [hg]
              | null => simp
              | num n => simp
              | str s => simp
              | oid s => simp
              | date t => simp
              | arr l2 => simp

theorem addUniqueValuesToList_dry (store : List JsVal) (query : Option Query)
    (field : String) (idValues : List String) :
    (addUniqueValuesToList store false query field idValues).saveCalled = false ∧
    (∀ d, (addUniqueValuesToList store false query field idValues).finalDoc = some d →
      (addUniqueValuesToList store false query field idValues).response = some (200, d)) := by
  unfold addUniqueValuesToList
  cases hf : findOne store query with
  | none => simp [hf]
  | some object =>
      simp only [hf]
      cases hw : (whileDescend object (splitDots field)).1 with
      | arr elems =>
          simp only [hw]
          cases hal : addUniqueLoop elems idValues with
          | none => simp [hal]
          | some elems1 => simp [hal]
      | null => simp [hw]
      | num n => simp [hw]
      | str s => simp [hw]
      | oid s => simp [hw]
      | date t => simp [hw]
      | obj fs => simp [hw]

/-- C6: with `saveEnabled` false, no mutating route ever calls the
store's save (or remove) operation, and whenever the route reaches its
success path it responds 200 with the in-memory mutated document —
for `genericChangeField`, `genericDeleteRoute`, `addArrayDuplicates`,
`removeArrayDuplicates`, `genericInject`, `pushArrayValue` and
`addUniqueValuesToList`. -/
theorem dry_run_never_saves_and_returns_document :
    (∀ (now : Nat) (store : List JsVal) (query : Option Query)
        (changes : List (String × JsVal)),
      (genericChangeField now store false query changes).saveCalled = false ∧
      (∀ d, (genericChangeField now store false query changes).finalDoc = some d →
        (genericChangeField now store false query changes).response = some (200, d))) ∧
    (∀ (store : List JsVal) (req : DeleteReq),
      (genericDeleteRoute store false req).saveCalled = false ∧
      (genericDeleteRoute store false req).removeCalled = false ∧
      (∀ d, (genericDeleteRoute store false req).finalDoc = some d →
        (genericDeleteRoute store false req).response = some (200, d))) ∧
    (∀ (store : List JsVal) (query : Option Query) (af : String),
      (addArrayDuplicates store false query af).saveCalled = false ∧
      (∀ d, (addArrayDuplicates store false query af).finalDoc = some d →
        (addArrayDuplicates store false query af).response = some (200, d))) ∧
    (∀ (store : List JsVal) (query : Option Query) (u : Option String) (af : String),
      (removeArrayDuplicates store false query u af).saveCalled = false ∧
      (∀ d, (removeArrayDuplicates store false query u af).finalDoc = some d →
        (removeArrayDuplicates store false query u af).response = some (200, d))) ∧
    (∀ (store : List JsVal) (query : Option Query) (injectData : List JsVal)
        (f fid : String),
      (genericInject store false query injectData f fid).saveCalled = false ∧
      (∀ d, (genericInject store false query injectData f fid).finalDoc = some d →
        (genericInject store false query injectData f fid).response = some (200, d))) ∧
    (∀ (store : List JsVal) (query : Option Query) (field : String)
        (value : JsVal) (idValues : IdValuesArg),
      (pushArrayValue store false query field value idValues).saveCalled = false ∧
      (∀ d, (pushArrayValue store false query field value idValues).finalDoc = some d →
        (pushArrayValue store false query field value idValues).response = some (200, d))) ∧
    (∀ (store : List JsVal) (query : Option Query) (field : String)
        (idValues : List String),
      (addUniqueValuesToList store false query field idValues).saveCalled = false ∧
      (∀ d, (addUniqueValuesToList store false query field idValues).finalDoc = some d →
        (addUniqueValuesToList store false query field idValues).response = some (200, d))) :=
  ⟨genericChangeField_dry, genericDeleteRoute_dry, addArrayDuplicates_dry,
   removeArrayDuplicates_dry, genericInject_dry, pushArrayValue_dry,
   addUniqueValuesToList_dry⟩

/-- C6 witness: one concrete dry-run per route — no save, and the 200
response carries the in-memory document. -/
theorem dry_run_never_saves_and_returns_document_witness :
    ((genericChangeField 0 [] false none []).saveCalled = false ∧
      (genericChangeField 0 [] false none []).response = some (200, JsVal.null)) ∧
    ((genericDeleteRoute [JsVal.obj []] false
        ⟨some [], none, none, false, some "tags"⟩).saveCalled = false ∧
      (genericDeleteRoute [JsVal.obj []] false
        ⟨some [], none, none, false, some "tags"⟩).response =
          some (200, JsVal.obj [("tags", JsVal.arr [])])) ∧
    ((addArrayDuplicates [JsVal.obj [("xs", JsVal.arr [])]] false none "xs").saveCalled
        = false ∧
      (addArrayDuplicates [JsVal.obj [("xs", JsVal.arr [])]] false none "xs").response =
        some (200, JsVal.obj [("xs", JsVal.arr [])])) ∧
    ((removeArrayDuplicates [JsVal.obj [("xs", JsVal.arr [])]] false none none
        "xs").saveCalled = false ∧
      (removeArrayDuplicates [JsVal.obj [("xs", JsVal.arr [])]] false none none
        "xs").response = some (200, JsVal.obj [("xs", JsVal.arr [])])) ∧
    ((genericInject [JsVal.obj [("xs", JsVal.arr [])]] false none [] "xs" "").saveCalled
        = false ∧
      (genericInject [JsVal.obj [("xs", JsVal.arr [])]] false none [] "xs" "").response =
        some (200, JsVal.obj [("xs", JsVal.arr [])])) ∧
    ((pushArrayValue [JsVal.obj [("xs", JsVal.arr [])]] false none "xs" (JsVal.str "a")
        IdValuesArg.absent).saveCalled = false ∧
      (pushArrayValue [JsVal.obj [("xs", JsVal.arr [])]] false none "xs" (JsVal.str "a")
        IdValuesArg.absent).response =
          some (200, JsVal.obj [("xs", JsVal.arr [JsVal.str "a"])])) ∧
    ((addUniqueValuesToList [JsVal.obj [("xs", JsVal.arr [])]] false none "xs"
        []).saveCalled = false ∧
      (addUniqueValuesToList [JsVal.obj [("xs", JsVal.arr [])]] false none "xs"
        []).response = some (200, JsVal.obj [("xs", JsVal.arr [])])) :=
  ⟨⟨(dry_run_never_saves_and_returns_document.1 0 [] none []).1,
    (dry_run_never_saves_and_returns_document.1 0 [] none []).2 JsVal.null rfl⟩,
   ⟨(dry_run_never_saves_and_returns_document.2.1 [JsVal.obj []]
      ⟨some [], none, none, false, some "tags"⟩).1,
    (dry_run_never_saves_and_returns_document.2.1 [JsVal.obj []]
      ⟨some [], none, none, false, some "tags"⟩).2.2
      (JsVal.obj [("tags", JsVal.arr [])]) rfl⟩,
   ⟨(dry_run_never_saves_and_returns_document.2.2.1
      [JsVal.obj [("xs", JsVal.arr [])]] none "xs").1,
    (dry_run_never_saves_and_returns_document.2.2.1
      [JsVal.obj [("xs", JsVal.arr [])]] none "xs").2
      (JsVal.obj [("xs", JsVal.arr [])]) rfl⟩,
   ⟨(dry_run_never_saves_and_returns_document.2.2.2.1
      [JsVal.obj [("xs", JsVal.arr [])]] none none "xs").1,
    (dry_run_never_saves_and_returns_document.2.2.2.1
      [JsVal.obj [("xs", JsVal.arr [])]] none none "xs").2
      (JsVal.obj [("xs", JsVal.arr [])]) rfl⟩,
   ⟨(dry_run_never_saves_and_returns_document.2.2.2.2.1
      [JsVal.obj [("xs", JsVal.arr [])]] none [] "xs" "").1,
    (dry_run_never_saves_and_returns_document.2.2.2.2.1
      [JsVal.obj [("xs", JsVal.arr [])]] none [] "xs" "").2
      (JsVal.obj [("xs", JsVal.arr [])]) rfl⟩,
   ⟨(dry_run_never_saves_and_returns_document.2.2.2.2.2.1
      [JsVal.obj [("xs", JsVal.arr [])]] none "xs" (JsVal.str "a") IdValuesArg.absent).1,
    (dry_run_never_saves_and_returns_document.2.2.2.2.2.1
      [JsVal.obj [("xs", JsVal.arr [])]] none "xs" (JsVal.str "a") IdValuesArg.absent).2
      (JsVal.obj [("xs", JsVal.arr [JsVal.str "a"])]) rfl⟩,
   ⟨(dry_run_never_saves_and_returns_document.2.2.2.2.2.2
      [JsVal.obj [("xs", JsVal.arr [])]] none "xs" []).1,
    (dry_run_never_saves_and_returns_document.2.2.2.2.2.2
      [JsVal.obj [("xs", JsVal.arr [])]] none "xs" []).2
      (JsVal.obj [("xs", JsVal.arr [])]) rfl⟩⟩
